import Mathlib

/-!
Verification development for the SIP BLF → Teams presence bridge.

The Go sources are shallowly embedded:
* Go strings are Lean `String`s; the handful of library helpers the code
  uses (`strings.ToLower`, `strings.TrimSpace`, `strings.Index`,
  `strings.IndexAny`, `bytes.Contains`) are modelled over `String.data`
  (ASCII case folding and whitespace, which covers every token the
  program compares against).
* `encoding/xml` unmarshalling is an external library; the two decode
  attempts of `ParseDialogInfo` are parameters `decNS` / `decNoNS`
  returning `Option` (`none` = decode error), and the SIP / Graph
  transports are parameters as well (reply scripts, directory oracles).
  Everything downstream of those calls is translated line by line from
  the source.
-/

namespace TeamsBlf

/-- ASCII model of the case folding done by `strings.ToLower`. -/
def lowerChar (c : Char) : Char :=
  if 'A' ≤ c && c ≤ 'Z' then Char.ofNat (c.toNat + 32) else c

/-- ASCII whitespace, as trimmed by `strings.TrimSpace`. -/
def isSpaceChar (c : Char) : Bool :=
  c == ' ' || c == '\t' || c == '\n' || c == '\r'

def trimList (l : List Char) : List Char :=
  ((l.dropWhile isSpaceChar).reverse.dropWhile isSpaceChar).reverse

/-- Model of `strings.ToLower`. -/
def goLower (s : String) : String := String.mk (s.data.map lowerChar)

/-- Model of `strings.TrimSpace`. -/
def goTrim (s : String) : String := String.mk (trimList s.data)

def listStartsWith : List Char → List Char → Bool
  | [], _ => true
  | _ :: _, [] => false
  | a :: as, b :: bs => a == b && listStartsWith as bs

def containsList (sub : List Char) : List Char → Bool
  | [] => sub.isEmpty
  | c :: cs => listStartsWith sub (c :: cs) || containsList sub cs

/-- Model of `bytes.Contains(s, sub)`. -/
def goContains (s sub : String) : Bool := containsList sub.data s.data

def idxOf? (c : Char) : List Char → Option Nat
  | [] => none
  | x :: xs => if x == c then some 0 else (idxOf? c xs).map (· + 1)

/-- Model of `strings.Index(s, c)` for a one-character needle. -/
def strIdxOf (s : String) (c : Char) : Option Nat := idxOf? c s.data

def idxOfAny? (cs : List Char) : List Char → Option Nat
  | [] => none
  | x :: xs => if cs.contains x then some 0 else (idxOfAny? cs xs).map (· + 1)

/-- Model of `strings.IndexAny`. -/
def strIdxOfAny (s : String) (cs : List Char) : Option Nat := idxOfAny? cs s.data

/-- Model of the Go slice `s[n:]`. -/
def strDropN (s : String) (n : Nat) : String := String.mk (s.data.drop n)

/-- Model of the Go slice `s[:n]`. -/
def strTakeN (s : String) (n : Nat) : String := String.mk (s.data.take n)

/-! ## package blf: normalized state and dialog-info documents -/

/-- Go: `type State string`. -/
abbrev State := String

def StateIdle : State := "idle"
def StateRinging : State := "ringing"
def StateBusy : State := "busy"
def StateUnknown : State := "unknown"

/-- The `<local>` / `<remote>` peer element of a dialog. -/
structure DialogPeer where
  Identity : String
  Target : String
deriving Repr, DecidableEq

/-- One `<dialog>` element of a namespaced dialog-info document. -/
structure Dialog where
  ID : String
  State : String
  StateAttr : String
  Direction : String
  Local : DialogPeer
  Remote : DialogPeer
deriving Repr, DecidableEq

/-- Go `Dialog.dialogState`: effective dialog state (child `<state>`
element, falling back to the `state` attribute), lowercased. -/
def Dialog.dialogState (d : Dialog) : String :=
  let s := goTrim d.State
  let s := if s = "" then goTrim d.StateAttr else s
  goLower s

/-- A `<dialog>` element of a namespace-free document (`dialogNoNS`). -/
structure DialogNoNS where
  ID : String
  State : String
  StateAttr : String
deriving Repr, DecidableEq

/-- The namespaced dialog-info document. -/
structure DialogInfo where
  Entity : String
  Dialogs : List Dialog
deriving Repr, DecidableEq

/-- The namespace-free dialog-info document (`dialogInfoNoNS`). -/
structure DialogInfoNoNS where
  Entity : String
  Dialogs : List DialogNoNS
deriving Repr, DecidableEq

/-- Go `dialogsToState`: first non-terminated, non-empty dialog decides
(`trying`/`early`/`proceeding` → ringing, `confirmed` → busy, anything
else → busy); empty or fully skipped list → idle. -/
def dialogsToState : List Dialog → State
  | [] => StateIdle
  | d :: rest =>
    let s := d.dialogState
    if s = "terminated" ∨ s = "" then dialogsToState rest
    else if s = "trying" ∨ s = "early" ∨ s = "proceeding" then StateRinging
    else if s = "confirmed" then StateBusy
    else StateBusy

/-- Go `dialogStateStr` (namespace-free variant of `dialogState`). -/
def dialogStateStr (s sAttr : String) : String :=
  let t := goTrim (goLower s)
  if t = "" then goTrim (goLower sAttr) else t

/-- Go `dialogsNoNSToState`. -/
def dialogsNoNSToState : List DialogNoNS → State
  | [] => StateIdle
  | d :: rest =>
    let s := dialogStateStr d.State d.StateAttr
    if s = "terminated" ∨ s = "" then dialogsNoNSToState rest
    else if s = "trying" ∨ s = "early" ∨ s = "proceeding" then StateRinging
    else if s = "confirmed" then StateBusy
    else StateBusy

/-- Go `ParseDialogInfo`: try the namespaced schema, on decode failure
retry namespace-free, else `unknown`.  `decNS` / `decNoNS` stand for the
two `xml.Unmarshal` calls (`none` = unmarshal error). -/
def ParseDialogInfo (decNS : String → Option DialogInfo)
    (decNoNS : String → Option DialogInfoNoNS) (body : String) : State :=
  match decNS body with
  | some info => dialogsToState info.Dialogs
  | none =>
    match decNoNS body with
    | some info => dialogsNoNSToState info.Dialogs
    | none => StateUnknown

/-- The entity-attribute branch of `ExtensionFromDialogInfo`:
`none` means the branch fell through to the dialog fallback. -/
def entityExtract (entity : String) : Option String :=
  if entity = "" then none
  else
    match strIdxOf entity ':' with
    | none => none
    | some idx =>
      let rest := strDropN entity (idx + 1)
      match strIdxOf rest '@' with
      | some a => some (strTakeN rest a)
      | none => some rest

/-- The local-identity fallback branch of `ExtensionFromDialogInfo`. -/
def localExtract (ident : String) : String :=
  match strIdxOf ident ':' with
  | none => ""
  | some idx =>
    let rest := strDropN ident (idx + 1)
    match strIdxOf rest '@' with
    | some a => strTakeN rest a
    | none => rest

/-- Go `ExtensionFromDialogInfo`: entity attribute first, then the first
dialog's local identity, else empty string.  Only the namespaced
unmarshal is attempted, exactly as in the source. -/
def ExtensionFromDialogInfo (decNS : String → Option DialogInfo)
    (body : String) : String :=
  match decNS body with
  | none => ""
  | some info =>
    match entityExtract info.Entity with
    | some r => r
    | none =>
      match info.Dialogs with
      | [] => ""
      | d :: _ => if d.Local.Identity = "" then "" else localExtract d.Local.Identity

/-- Go `ParsePresenceBody` (minimal RFC 3856 style fallback parser). -/
def ParsePresenceBody (decNS : String → Option DialogInfo)
    (decNoNS : String → Option DialogInfoNoNS) (body : String) : State :=
  if goContains body "dialog-info" then ParseDialogInfo decNS decNoNS body
  else if goContains body "closed" && !goContains body "open" then StateIdle
  else if goContains body "open" then StateBusy
  else StateUnknown

/-! ## package blf, state.go: the State → Graph mapper -/

def GraphAvailabilityAvailable : String := "Available"
def GraphAvailabilityBusy : String := "Busy"
def GraphActivityAvailable : String := "Available"
def GraphActivityInACall : String := "InACall"

/-- Go `State.ToGraph`: maps BLF state to Graph (availability, activity). -/
def State.ToGraph (s : State) : String × String :=
  if s = StateIdle then (GraphAvailabilityAvailable, GraphActivityAvailable)
  else if s = StateRinging ∨ s = StateBusy then
    (GraphAvailabilityBusy, GraphActivityInACall)
  else (GraphAvailabilityAvailable, GraphActivityAvailable)

/-! ## package sip: Register, Subscribe, handleNOTIFY -/

/-- One reply of the reply script consumed by a transaction: either the
transaction died with no response, or a response with a status code and
an optional `WWW-Authenticate` header value. -/
inductive Reply
  | died
  | response (status : Nat) (wwwAuth : Option String)
deriving Repr, DecidableEq

/-- The distinct error exits of `Client.Register`. -/
inductive RegErr
  | transport
  | noChallenge
  | challengeParse
  | digestFail
  | badStatus (code : Nat)
deriving Repr, DecidableEq

/-- One request sent on the wire: its CSeq value and whether it carried
an `Authorization` credential. -/
structure SentReq where
  cseq : Nat
  hasAuth : Bool
deriving Repr, DecidableEq

/-- Go `Client.Register`.  `parseChal` models `digest.ParseChallenge`,
`mkDigest` models `digest.Digest`; `replies` is the transport's reply
script, consumed one entry per sent request.  Returns the list of sent
requests together with the result. -/
def Register {Chal Cred : Type} (parseChal : String → Option Chal)
    (mkDigest : Chal → Option Cred) (cseq0 : Nat) (replies : List Reply) :
    List SentReq × Except RegErr Unit :=
  let req1 : SentReq := ⟨cseq0, false⟩
  match replies.head? with
  | none => ([req1], .error .transport)
  | some .died => ([req1], .error .transport)
  | some (.response status auth) =>
    if status = 401 then
      match auth with
      | none => ([req1], .error .noChallenge)
      | some v =>
        match parseChal v with
        | none => ([req1], .error .challengeParse)
        | some chal =>
          match mkDigest chal with
          | none => ([req1], .error .digestFail)
          | some _cred =>
            let req2 : SentReq := ⟨cseq0 + 1, true⟩
            match (replies.drop 1).head? with
            | none => ([req1, req2], .error .transport)
            | some .died => ([req1, req2], .error .transport)
            | some (.response st2 _) =>
              if st2 = 200 ∨ st2 = 202 then ([req1, req2], .ok ())
              else ([req1, req2], .error (.badStatus st2))
    else if status = 200 ∨ status = 202 then ([req1], .ok ())
    else ([req1], .error (.badStatus status))

/-- The failed-extension accumulation loop of `Client.Subscribe`:
`subOne ext` is the outcome of `subscribeOne` (`none` = success,
`some msg` = that extension's error). -/
def subscribeLoop (subOne : String → Option String) : List String → List String
  | [] => []
  | ext :: rest =>
    if (subOne ext).isSome then ext :: subscribeLoop subOne rest
    else subscribeLoop subOne rest

/-- Go `Client.Subscribe`: attempts every extension, collects failures,
and errors (carrying the failed list) iff the failed count equals the
extension count; otherwise succeeds, reporting the failed subset. -/
def Subscribe (subOne : String → Option String) (extensions : List String) :
    Except (List String) (List String) :=
  let failed := subscribeLoop subOne extensions
  if failed.length = extensions.length then .error failed
  else .ok failed

/-- The `To`-header fallback scan inside `handleNOTIFY`. -/
def toHeaderExtension (val : String) : String :=
  match strIdxOf val ':' with
  | none => ""
  | some idx =>
    let rest0 := strDropN val (idx + 1)
    let rest :=
      match strIdxOfAny rest0 ['>', ';'] with
      | some e => strTakeN rest0 e
      | none => rest0
    match strIdxOf rest '@' with
    | some a => strTakeN rest a
    | none => ""

/-- The resource identifier `handleNOTIFY` ends up with: body extraction
first, then the `To`-header fallback. -/
def notifyExtension (decNS : String → Option DialogInfo) (body : String)
    (toHeader : Option String) : String :=
  let ext := ExtensionFromDialogInfo decNS body
  if ext = "" then
    match toHeader with
    | some val => toHeaderExtension val
    | none => ""
  else ext

/-- The normalized state `handleNOTIFY` ends up with: dialog-info parse,
retried with the presence parser when it yields `unknown`. -/
def notifyState (decNS : String → Option DialogInfo)
    (decNoNS : String → Option DialogInfoNoNS) (body : String) : State :=
  let st := ParseDialogInfo decNS decNoNS body
  if st = StateUnknown then ParsePresenceBody decNS decNoNS body else st

/-- Observable actions of the NOTIFY handler: the 200 acknowledgement
(`ack` is the `tx.Respond` call) and the BLF callback invocation. -/
inductive NotifyAction
  | ack
  | callback (ext : String) (st : State)
deriving Repr, DecidableEq

/-- Go `Client.handleNOTIFY` as its trace of observable actions.
`ackOk` is the outcome of the 200 respond call, `hasCallback` whether
`c.onBLF` is non-nil. -/
def handleNOTIFY (decNS : String → Option DialogInfo)
    (decNoNS : String → Option DialogInfoNoNS) (ackOk : Bool)
    (hasCallback : Bool) (body : String) (toHeader : Option String) :
    List NotifyAction :=
  if !ackOk then [.ack]
  else
    .ack ::
      (if body = "" then []
       else
         let ext := notifyExtension decNS body toHeader
         let st := notifyState decNS decNoNS body
         if ext ≠ "" && hasCallback then [.callback ext st] else [])

/-! ## package graph: identity resolution cache and presence publishing -/

/-- Outcome of the directory lookup `GET /users/{upn}`:
network error, nil user, or a user whose `GetId()` is `id`
(`none` models a nil id pointer). -/
inductive DirReply
  | fail
  | noUser
  | found (id : Option String)
deriving Repr, DecidableEq

/-- The error exits of `Client.resolveUserID`. -/
inductive ResolveErr
  | lookupFailed
  | notFound
  | noId
deriving Repr, DecidableEq

/-- The `userIDCache` map, as an association list (newest binding first). -/
def lookupCache : List (String × String) → String → Option String
  | [], _ => none
  | (k, v) :: rest, upn => if k = upn then some v else lookupCache rest upn

/-- Result of one `resolveUserID` call: its return value, the cache
afterwards, and whether the underlying directory lookup was performed. -/
structure ResolveOut where
  result : Except ResolveErr String
  cache : List (String × String)
  didLookup : Bool
deriving Repr

/-- Go `Client.resolveUserID`: cache hit returns immediately; on a miss
the directory is queried once, errors are propagated without caching,
and a valid id is stored before being returned. -/
def resolveUserID (dir : String → DirReply)
    (cache : List (String × String)) (upn : String) : ResolveOut :=
  match lookupCache cache upn with
  | some id => ⟨.ok id, cache, false⟩
  | none =>
    match dir upn with
    | .fail => ⟨.error .lookupFailed, cache, true⟩
    | .noUser => ⟨.error .notFound, cache, true⟩
    | .found none => ⟨.error .noId, cache, true⟩
    | .found (some id) =>
      if id = "" then ⟨.error .noId, cache, true⟩
      else ⟨.ok id, (upn, id) :: cache, true⟩

/-- The error exits of `Client.SetPresence`; `resolve e` tags an error
propagated unchanged from `resolveUserID`. -/
inductive PresenceErr
  | resolve (e : ResolveErr)
  | durParse
  | post
deriving Repr, DecidableEq

/-- Result of one `SetPresence` call: its return value, the identity
cache afterwards, and how many presence-update POSTs were issued. -/
structure SetPresenceOut where
  result : Except PresenceErr Unit
  cache : List (String × String)
  postCalls : Nat
deriving Repr

/-- Go `Client.SetPresence`: resolve the UPN (errors return with no
POST), parse the fixed expiration duration (`durOk` models
`parseISODuration(expiration)` succeeding), then issue exactly one
presence POST whose outcome `postOk` is surfaced unchanged — no retry. -/
def SetPresence (dir : String → DirReply) (durOk : Bool) (postOk : Bool)
    (cache : List (String × String)) (userID : String) : SetPresenceOut :=
  let r := resolveUserID dir cache userID
  match r.result with
  | .error e => ⟨.error (.resolve e), r.cache, 0⟩
  | .ok _objectID =>
    if !durOk then ⟨.error .durParse, r.cache, 0⟩
    else if postOk then ⟨.ok (), r.cache, 1⟩
    else ⟨.error .post, r.cache, 1⟩

/-! ## Helper lemmas -/

theorem subscribeLoop_eq_filter (subOne : String → Option String)
    (l : List String) :
    subscribeLoop subOne l = l.filter (fun e => (subOne e).isSome) := by
  induction l with
  | nil => rfl
  | cons x xs ih =>
    by_cases h : (subOne x).isSome <;>
      simp [subscribeLoop, List.filter_cons, h, ih]

/-! ## Claim theorems -/

/-- Claim C4: `State.ToGraph` is a total, deterministic map: idle →
(Available, Available), ringing and busy → (Busy, InACall), unknown →
(Available, Available), and every other value also falls to the
fail-open (Available, Available) pair. -/
theorem claim_c4_state_mapper :
    State.ToGraph StateIdle = (GraphAvailabilityAvailable, GraphActivityAvailable)
    ∧ State.ToGraph StateRinging = (GraphAvailabilityBusy, GraphActivityInACall)
    ∧ State.ToGraph StateBusy = (GraphAvailabilityBusy, GraphActivityInACall)
    ∧ State.ToGraph StateUnknown = (GraphAvailabilityAvailable, GraphActivityAvailable)
    ∧ ∀ s : State, s ≠ StateIdle → s ≠ StateRinging → s ≠ StateBusy →
        State.ToGraph s = (GraphAvailabilityAvailable, GraphActivityAvailable) := by
  refine ⟨by decide, by decide, by decide, by decide, ?_⟩
  intro s h1 h2 h3
  simp [State.ToGraph, h1, h2, h3]

/-- Witness for C4: the catch-all branch at a concrete unparseable value. -/
theorem claim_c4_witness :
    State.ToGraph "garbage" = (GraphAvailabilityAvailable, GraphActivityAvailable) :=
  claim_c4_state_mapper.2.2.2.2 "garbage" (by decide) (by decide) (by decide)

/-- Claim C10: `Subscribe` on an empty extension list returns the
aggregate all-failed error (with an empty failed list), since the failed
count (zero) equals the extension count (zero). -/
theorem claim_c10_subscribe_empty (subOne : String → Option String) :
    Subscribe subOne [] = .error [] := by
  simp [Subscribe, subscribeLoop]

/-- Claim C1: `Subscribe` attempts every extension independently (the
failed list is exactly the filter of the per-extension outcomes over the
whole list); for a non-empty extension list it returns the aggregate
error iff every extension fails, and succeeds — reporting the failed
subset — whenever at least one extension succeeds. -/
theorem claim_c1_subscribe_partial_failure (subOne : String → Option String)
    (exts : List String) (hne : exts ≠ []) :
    (Subscribe subOne exts = .error (exts.filter (fun e => (subOne e).isSome)) ↔
      ∀ e ∈ exts, (subOne e).isSome)
    ∧ ((∃ e ∈ exts, subOne e = none) →
        Subscribe subOne exts = .ok (exts.filter (fun e => (subOne e).isSome))) := by
  constructor
  · constructor
    · intro h
      rw [Subscribe, subscribeLoop_eq_filter] at h
      by_cases hlen :
          (exts.filter (fun e => (subOne e).isSome)).length = exts.length
      · exact List.filter_length_eq_length.mp hlen
      · simp [hlen] at h
    · intro h
      rw [Subscribe, subscribeLoop_eq_filter]
      simp [List.filter_length_eq_length.mpr h]
  · rintro ⟨e, he, hsucc⟩
    rw [Subscribe, subscribeLoop_eq_filter]
    have hlt : (exts.filter (fun e => (subOne e).isSome)).length ≠ exts.length := by
      intro hlen
      have := List.filter_length_eq_length.mp hlen e he
      simp [hsucc] at this
    simp [hlt]

/-- Witness for C1: extensions `[A, B, C]` where only B fails yields
success with `[B]` reported as failed. -/
theorem claim_c1_witness :
    Subscribe (fun e => if e = "B" then some "permanent failure" else none)
      ["A", "B", "C"] = .ok ["B"] := by
  have h := (claim_c1_subscribe_partial_failure
      (fun e => if e = "B" then some "permanent failure" else none)
      ["A", "B", "C"] (by decide)).2 ⟨"A", by decide, by decide⟩
  exact h.trans (congrArg Except.ok (by decide))

/-- A dialog the scan does not skip: effective state neither
`terminated` nor empty. -/
def dialogActive (d : Dialog) : Bool :=
  !(d.dialogState == "terminated" || d.dialogState == "")

/-- A dialog with the given `<state>` element text and no other content,
for concrete test documents. -/
def mkDialogSt (st : String) : Dialog :=
  ⟨"", st, "", "", ⟨"", ""⟩, ⟨"", ""⟩⟩

theorem dialogActive_false_iff (d : Dialog) :
    dialogActive d = false ↔
      (d.dialogState = "terminated" ∨ d.dialogState = "") := by
  simp only [dialogActive, Bool.not_eq_false', Bool.or_eq_true, beq_iff_eq]

theorem dialogsToState_ne_unknown (ds : List Dialog) :
    dialogsToState ds ≠ StateUnknown := by
  induction ds with
  | nil => decide
  | cons d rest ih =>
    rw [dialogsToState]
    split
    · exact ih
    · split
      · decide
      · split <;> decide

theorem dialogsNoNSToState_ne_unknown (ds : List DialogNoNS) :
    dialogsNoNSToState ds ≠ StateUnknown := by
  induction ds with
  | nil => decide
  | cons d rest ih =>
    rw [dialogsNoNSToState]
    split
    · exact ih
    · split
      · decide
      · split <;> decide

/-- Claim C2: `dialogsToState` scans in document order, skips
terminated/empty effective states, and lets the first remaining dialog
decide (trying/early/proceeding → ringing, confirmed → busy, any other
token → busy); `[terminated, early, confirmed]` yields ringing, and the
empty or fully skipped list yields idle. -/
theorem claim_c2_dialogs_to_state :
    (∀ ds : List Dialog,
      dialogsToState ds =
        match ds.find? dialogActive with
        | none => StateIdle
        | some d =>
          if d.dialogState = "trying" ∨ d.dialogState = "early"
              ∨ d.dialogState = "proceeding" then StateRinging
          else if d.dialogState = "confirmed" then StateBusy
          else StateBusy)
    ∧ dialogsToState
        [mkDialogSt "terminated", mkDialogSt "early", mkDialogSt "confirmed"]
        = StateRinging
    ∧ dialogsToState [] = StateIdle
    ∧ (∀ ds : List Dialog, (∀ d ∈ ds, dialogActive d = false) →
        dialogsToState ds = StateIdle) := by
  have main : ∀ ds : List Dialog,
      dialogsToState ds =
        match ds.find? dialogActive with
        | none => StateIdle
        | some d =>
          if d.dialogState = "trying" ∨ d.dialogState = "early"
              ∨ d.dialogState = "proceeding" then StateRinging
          else if d.dialogState = "confirmed" then StateBusy
          else StateBusy := by
    intro ds
    induction ds with
    | nil => rfl
    | cons d rest ih =>
      by_cases h : dialogActive d
      · rw [dialogsToState, List.find?_cons_of_pos _ h]
        have hskip : ¬(d.dialogState = "terminated" ∨ d.dialogState = "") := by
          intro hc
          rw [← dialogActive_false_iff] at hc
          simp [h] at hc
        rw [if_neg hskip]
      · rw [dialogsToState, List.find?_cons_of_neg _ h,
          if_pos ((dialogActive_false_iff d).mp (by simpa using h))]
        exact ih
  refine ⟨main, by decide, rfl, ?_⟩
  intro ds hall
  rw [main ds, List.find?_eq_none.mpr (fun d hd => by simp [hall d hd])]

/-- Witness for C2: a singleton terminated list is fully skipped and
yields idle. -/
theorem claim_c2_witness :
    dialogsToState [mkDialogSt "terminated"] = StateIdle :=
  claim_c2_dialogs_to_state.2.2.2 [mkDialogSt "terminated"] (by decide)

/-- Claim C5: `ParseDialogInfo` is total; it uses the namespaced decode
when it succeeds, falls back to the namespace-free decode on failure,
and yields `unknown` exactly when both decodes fail. -/
theorem claim_c5_parse_total (decNS : String → Option DialogInfo)
    (decNoNS : String → Option DialogInfoNoNS) (body : String) :
    (∀ info, decNS body = some info →
      ParseDialogInfo decNS decNoNS body = dialogsToState info.Dialogs)
    ∧ (decNS body = none → ∀ info, decNoNS body = some info →
      ParseDialogInfo decNS decNoNS body = dialogsNoNSToState info.Dialogs)
    ∧ (ParseDialogInfo decNS decNoNS body = StateUnknown ↔
      decNS body = none ∧ decNoNS body = none) := by
  rcases h1 : decNS body with _ | info1
  · rcases h2 : decNoNS body with _ | info2
    · simp [ParseDialogInfo, h1, h2]
    · simp [ParseDialogInfo, h1, h2, dialogsNoNSToState_ne_unknown]
  · simp [ParseDialogInfo, h1, dialogsToState_ne_unknown]

/-- Witness for C5: non-XML garbage (both decodes fail) yields
`unknown`. -/
theorem claim_c5_witness :
    ParseDialogInfo (fun _ => none) (fun _ => none) "not xml at all"
      = StateUnknown :=
  ((claim_c5_parse_total (fun _ => none) (fun _ => none)
    "not xml at all").2.2).mpr ⟨rfl, rfl⟩

theorem register_sends_le_two {Chal Cred : Type}
    (parseChal : String → Option Chal) (mkDigest : Chal → Option Cred)
    (cseq0 : Nat) (replies : List Reply) :
    (Register parseChal mkDigest cseq0 replies).1.length ≤ 2 := by
  unfold Register
  repeat' split
  all_goals simp

/-- Claim C3: `Register` performs at most one credentialed retry.  A 401
with a valid challenge followed by a 200 succeeds after exactly one
retry (the second request carrying the credential and an incremented
CSeq); a second challenge, or any non-success status on the retry, is an
error with no third request; never are more than two requests sent; and
a 401 that carries no challenge header is the distinct malformed-challenge
error, different from the transport error of getting no reply at all. -/
theorem claim_c3_register_single_retry {Chal Cred : Type}
    (parseChal : String → Option Chal) (mkDigest : Chal → Option Cred)
    (cseq0 : Nat) (v : String) (chal : Chal) (cred : Cred)
    (hp : parseChal v = some chal) (hd : mkDigest chal = some cred) :
    Register parseChal mkDigest cseq0
        [.response 401 (some v), .response 200 none]
      = ([⟨cseq0, false⟩, ⟨cseq0 + 1, true⟩], .ok ())
    ∧ (∀ auth2, Register parseChal mkDigest cseq0
        [.response 401 (some v), .response 401 auth2]
      = ([⟨cseq0, false⟩, ⟨cseq0 + 1, true⟩], .error (.badStatus 401)))
    ∧ (∀ st2 auth2, st2 ≠ 200 → st2 ≠ 202 →
        Register parseChal mkDigest cseq0
            [.response 401 (some v), .response st2 auth2]
          = ([⟨cseq0, false⟩, ⟨cseq0 + 1, true⟩], .error (.badStatus st2)))
    ∧ (∀ st auth, st ≠ 401 → st ≠ 200 → st ≠ 202 →
        Register parseChal mkDigest cseq0 [.response st auth]
          = ([⟨cseq0, false⟩], .error (.badStatus st)))
    ∧ (∀ replies, (Register parseChal mkDigest cseq0 replies).1.length ≤ 2)
    ∧ Register parseChal mkDigest cseq0 [.response 401 none]
      = ([⟨cseq0, false⟩], .error .noChallenge)
    ∧ Register parseChal mkDigest cseq0 [.died]
      = ([⟨cseq0, false⟩], .error .transport)
    ∧ RegErr.noChallenge ≠ RegErr.transport := by
  refine ⟨?_, ?_, ?_, ?_, register_sends_le_two parseChal mkDigest cseq0,
    ?_, ?_, by decide⟩
  · simp [Register, hp, hd]
  · intro auth2
    simp [Register, hp, hd]
  · intro st2 auth2 h200 h202
    simp [Register, hp, hd, h200, h202]
  · intro st auth h401 h200 h202
    simp [Register, h401, h200, h202]
  · simp [Register]
  · simp [Register]

/-- Witness for C3: the 401-then-200 scenario at concrete challenge and
digest oracles that accept. -/
theorem claim_c3_witness :
    Register (fun _ => some ()) (fun _ => some ()) 1
        [.response 401 (some "Digest realm"), .response 200 none]
      = ([⟨1, false⟩, ⟨2, true⟩], .ok ()) :=
  (claim_c3_register_single_retry (fun _ => some ()) (fun _ => some ())
    1 "Digest realm" () () rfl rfl).1

theorem resolveUserID_preserves_cache (dir : String → DirReply)
    (c : List (String × String)) (upn k : String) (v : String)
    (hkv : lookupCache c k = some v) :
    lookupCache (resolveUserID dir c upn).cache k = some v := by
  rcases h : lookupCache c upn with _ | id0
  · simp only [resolveUserID, h]
    rcases dir upn with _ | _ | id1
    · exact hkv
    · exact hkv
    · rcases id1 with _ | id2
      · exact hkv
      · by_cases hz : id2 = ""
        · simp [hz, hkv]
        · simp only [hz, if_false, lookupCache]
          by_cases hk : upn = k
          · subst hk; rw [h] at hkv; cases hkv
          · simp [hk, hkv]
  · simp [resolveUserID, h, hkv]

/-- Claim C6: identity resolution memoizes.  For a fresh identifier that
the directory resolves to a valid id, the first `resolveUserID` call
performs the one underlying lookup, the second call returns the same id
from the cache with no lookup and no cache change; and no call ever
invalidates an existing cached binding. -/
theorem claim_c6_resolve_memoizes (dir : String → DirReply)
    (cache : List (String × String)) (upn id : String)
    (hfresh : lookupCache cache upn = none)
    (hdir : dir upn = .found (some id)) (hid : id ≠ "") :
    (resolveUserID dir cache upn).result = .ok id
    ∧ (resolveUserID dir cache upn).didLookup = true
    ∧ (resolveUserID dir (resolveUserID dir cache upn).cache upn).result = .ok id
    ∧ (resolveUserID dir (resolveUserID dir cache upn).cache upn).didLookup = false
    ∧ (resolveUserID dir (resolveUserID dir cache upn).cache upn).cache
        = (resolveUserID dir cache upn).cache
    ∧ (∀ dir' c upn' k v, lookupCache c k = some v →
        lookupCache (resolveUserID dir' c upn').cache k = some v) := by
  have h1 : resolveUserID dir cache upn
      = ⟨.ok id, (upn, id) :: cache, true⟩ := by
    simp [resolveUserID, hfresh, hdir, hid]
  have h2 : lookupCache ((upn, id) :: cache) upn = some id := by
    simp [lookupCache]
  have h3 : resolveUserID dir ((upn, id) :: cache) upn
      = ⟨.ok id, (upn, id) :: cache, false⟩ := by
    simp [resolveUserID, h2]
  exact ⟨by simp [h1], by simp [h1], by simp [h1, h3], by simp [h1, h3],
    by simp [h1, h3],
    fun dir' c upn' k v hkv => resolveUserID_preserves_cache dir' c upn' k v hkv⟩

/-- Witness for C6: a concrete directory and fresh cache; the second
call is served from the cache without a lookup. -/
theorem claim_c6_witness :
    (resolveUserID (fun _ => .found (some "guid-1")) [] "user@contoso.com").result
      = .ok "guid-1"
    ∧ (resolveUserID (fun _ => .found (some "guid-1"))
        (resolveUserID (fun _ => .found (some "guid-1")) [] "user@contoso.com").cache
        "user@contoso.com").didLookup = false := by
  have h := claim_c6_resolve_memoizes (fun _ => .found (some "guid-1")) []
    "user@contoso.com" "guid-1" rfl rfl (by decide)
  exact ⟨h.1, h.2.2.2.1⟩

/-- Claim C7: `SetPresence` with a failing identity resolution returns
that error with no presence POST issued; with resolution succeeding and
the POST failing, the POST error is surfaced and exactly one POST was
attempted (no retry within the call). -/
theorem claim_c7_set_presence (dir : String → DirReply) (durOk postOk : Bool)
    (cache : List (String × String)) (userID : String) :
    (∀ e, (resolveUserID dir cache userID).result = .error e →
      (SetPresence dir durOk postOk cache userID).result = .error (.resolve e)
      ∧ (SetPresence dir durOk postOk cache userID).postCalls = 0)
    ∧ ((∃ id, (resolveUserID dir cache userID).result = .ok id) →
        durOk = true → postOk = false →
      (SetPresence dir durOk postOk cache userID).result = .error .post
      ∧ (SetPresence dir durOk postOk cache userID).postCalls = 1) := by
  constructor
  · intro e he
    constructor <;> simp [SetPresence, he]
  · rintro ⟨id, hid⟩ hdur hpost
    constructor <;> simp [SetPresence, hid, hdur, hpost]

/-- Witness for C7: a directory that fails resolution; the error comes
back and no POST is issued. -/
theorem claim_c7_witness :
    (SetPresence (fun _ => .fail) true true [] "user@contoso.com").result
      = .error (.resolve .lookupFailed)
    ∧ (SetPresence (fun _ => .fail) true true [] "user@contoso.com").postCalls
      = 0 :=
  (claim_c7_set_presence (fun _ => .fail) true true [] "user@contoso.com").1
    .lookupFailed rfl

/-- Claim C8: `handleNOTIFY` acknowledges first, unconditionally; an
empty body is dropped with no callback; a non-empty body triggers the
registered callback with the extracted resource identifier and the
normalized state exactly when an identifier was found (from the body or
the To-header fallback), and is silently dropped otherwise. -/
theorem claim_c8_handle_notify (decNS : String → Option DialogInfo)
    (decNoNS : String → Option DialogInfoNoNS) (ackOk hasCallback : Bool)
    (body : String) (toHeader : Option String) :
    (handleNOTIFY decNS decNoNS ackOk hasCallback body toHeader).head?
      = some .ack
    ∧ (ackOk = true → body = "" →
        handleNOTIFY decNS decNoNS ackOk hasCallback body toHeader = [.ack])
    ∧ (ackOk = true → hasCallback = true → body ≠ "" →
        (notifyExtension decNS body toHeader ≠ "" →
          handleNOTIFY decNS decNoNS ackOk hasCallback body toHeader =
            [.ack, .callback (notifyExtension decNS body toHeader)
              (notifyState decNS decNoNS body)])
        ∧ (notifyExtension decNS body toHeader = "" →
          handleNOTIFY decNS decNoNS ackOk hasCallback body toHeader
            = [.ack])) := by
  refine ⟨?_, ?_, ?_⟩
  · cases ackOk with
    | false => rfl
    | true =>
      rw [handleNOTIFY]
      simp only [Bool.not_true, Bool.false_eq_true, if_false]
      rfl
  · intro hack hbody
    subst hack
    simp [handleNOTIFY, hbody]
  · intro hack hcb hbody
    subst hack
    subst hcb
    constructor
    · intro hext
      simp [handleNOTIFY, hbody, hext]
    · intro hext
      simp [handleNOTIFY, hbody, hext]

/-- Witness for C8: a body whose decoded document names entity
`sip:6000@pbx` and has no dialogs fires the callback with
(`6000`, idle). -/
theorem claim_c8_witness :
    handleNOTIFY (fun _ => some ⟨"sip:6000@pbx", []⟩) (fun _ => none)
      true true "<dialog-info entity=x/>" none
      = [.ack, .callback "6000" StateIdle] := by
  have h := ((claim_c8_handle_notify (fun _ => some ⟨"sip:6000@pbx", []⟩)
      (fun _ => none) true true "<dialog-info entity=x/>" none).2.2
      rfl rfl (by decide)).1 (by decide)
  exact h.trans (by decide)

theorem data_append (s t : String) : (s ++ t).data = s.data ++ t.data := by
  cases s; cases t; rfl

theorem idxOf?_append_sep (c : Char) (l₁ l₂ : List Char) (h : c ∉ l₁) :
    idxOf? c (l₁ ++ c :: l₂) = some l₁.length := by
  induction l₁ with
  | nil => simp [idxOf?]
  | cons x xs ih =>
    have hx : (x == c) = false := by
      rcases eq_or_ne x c with rfl | hne
      · exact absurd (List.mem_cons_self x xs) h
      · simp [hne]
    have hm : c ∉ xs := fun hmm => h (List.mem_cons_of_mem x hmm)
    simp [idxOf?, hx, ih hm]

theorem drop_append_sep (c : Char) (l₁ l₂ : List Char) :
    (l₁ ++ c :: l₂).drop (l₁.length + 1) = l₂ := by
  induction l₁ with
  | nil => simp
  | cons x xs ih => exact ih

theorem scheme_concat_data (scheme ident host : String) :
    (scheme ++ ":" ++ ident ++ "@" ++ host).data
      = scheme.data ++ ':' :: (ident.data ++ '@' :: host.data) := by
  simp [data_append]

theorem scheme_concat_ne_empty (scheme ident host : String) :
    scheme ++ ":" ++ ident ++ "@" ++ host ≠ "" := by
  intro h0
  have h1 := scheme_concat_data scheme ident host
  rw [h0] at h1
  have h2 : ([] : List Char)
      = scheme.data ++ ':' :: (ident.data ++ '@' :: host.data) := h1
  exact absurd h2.symm (by simp)

theorem takeN_mk_left (ident : String) (l₂ : List Char) :
    strTakeN (String.mk (ident.data ++ l₂)) ident.data.length = ident := by
  rw [strTakeN]
  show String.mk ((ident.data ++ l₂).take ident.data.length) = ident
  rw [List.take_left]

theorem localExtract_scheme (scheme ident host : String)
    (hs : ':' ∉ scheme.data) (hi : '@' ∉ ident.data) :
    localExtract (scheme ++ ":" ++ ident ++ "@" ++ host) = ident := by
  have hidx : strIdxOf (scheme ++ ":" ++ ident ++ "@" ++ host) ':'
      = some scheme.data.length := by
    rw [strIdxOf, scheme_concat_data]
    exact idxOf?_append_sep ':' scheme.data _ hs
  have hdrop : strDropN (scheme ++ ":" ++ ident ++ "@" ++ host)
      (scheme.data.length + 1) = String.mk (ident.data ++ '@' :: host.data) := by
    rw [strDropN, scheme_concat_data, drop_append_sep]
  have hidx2 : strIdxOf (String.mk (ident.data ++ '@' :: host.data)) '@'
      = some ident.data.length := idxOf?_append_sep '@' ident.data host.data hi
  have htake : strTakeN (String.mk (ident.data ++ '@' :: host.data))
      ident.data.length = ident := takeN_mk_left ident ('@' :: host.data)
  simp only [localExtract, hidx, hdrop, hidx2, htake]

theorem entityExtract_scheme (scheme ident host : String)
    (hs : ':' ∉ scheme.data) (hi : '@' ∉ ident.data) :
    entityExtract (scheme ++ ":" ++ ident ++ "@" ++ host) = some ident := by
  have hidx : strIdxOf (scheme ++ ":" ++ ident ++ "@" ++ host) ':'
      = some scheme.data.length := by
    rw [strIdxOf, scheme_concat_data]
    exact idxOf?_append_sep ':' scheme.data _ hs
  have hdrop : strDropN (scheme ++ ":" ++ ident ++ "@" ++ host)
      (scheme.data.length + 1) = String.mk (ident.data ++ '@' :: host.data) := by
    rw [strDropN, scheme_concat_data, drop_append_sep]
  have hidx2 : strIdxOf (String.mk (ident.data ++ '@' :: host.data)) '@'
      = some ident.data.length := idxOf?_append_sep '@' ident.data host.data hi
  have htake : strTakeN (String.mk (ident.data ++ '@' :: host.data))
      ident.data.length = ident := takeN_mk_left ident ('@' :: host.data)
  unfold entityExtract
  rw [if_neg (scheme_concat_ne_empty scheme ident host)]
  simp only [hidx, hdrop, hidx2, htake]

/-- Claim C9: `ExtensionFromDialogInfo` prefers the document's entity
attribute of the form `scheme:identifier@host` and returns the
identifier between the scheme colon and the `@`; when the entity is
absent it applies the same rule to the first dialog's local identity;
and it returns the empty string when neither is available. -/
theorem claim_c9_extension_extraction (decNS : String → Option DialogInfo)
    (body : String) (info : DialogInfo) (hdec : decNS body = some info) :
    (∀ scheme ident host : String, ':' ∉ scheme.data → '@' ∉ ident.data →
      info.Entity = scheme ++ ":" ++ ident ++ "@" ++ host →
      ExtensionFromDialogInfo decNS body = ident)
    ∧ (info.Entity = "" → ∀ d rest, info.Dialogs = d :: rest →
        ∀ scheme ident host : String, ':' ∉ scheme.data → '@' ∉ ident.data →
        d.Local.Identity = scheme ++ ":" ++ ident ++ "@" ++ host →
        ExtensionFromDialogInfo decNS body = ident)
    ∧ (info.Entity = "" → info.Dialogs = [] →
        ExtensionFromDialogInfo decNS body = "")
    ∧ (info.Entity = "" → ∀ d rest, info.Dialogs = d :: rest →
        d.Local.Identity = "" → ExtensionFromDialogInfo decNS body = "") := by
  refine ⟨?_, ?_, ?_, ?_⟩
  · intro scheme ident host hs hi hent
    simp only [ExtensionFromDialogInfo, hdec, hent,
      entityExtract_scheme scheme ident host hs hi]
  · intro hent d rest hdia scheme ident host hs hi hloc
    have hidne : d.Local.Identity ≠ "" := by
      rw [hloc]; exact scheme_concat_ne_empty scheme ident host
    simp only [ExtensionFromDialogInfo, hdec, hent, hdia]
    simp [entityExtract, hidne, hloc,
      localExtract_scheme scheme ident host hs hi,
      scheme_concat_ne_empty scheme ident host]
  · intro hent hdia
    simp [ExtensionFromDialogInfo, hdec, hent, hdia, entityExtract]
  · intro hent d rest hdia hloc
    simp [ExtensionFromDialogInfo, hdec, hent, hdia, hloc, entityExtract]

/-- Witness for C9: a decoded document with entity
`sip:6000@pbx.example.com` yields extension `6000`. -/
theorem claim_c9_witness :
    ExtensionFromDialogInfo
      (fun _ => some ⟨"sip:6000@pbx.example.com", []⟩) "notify body"
      = "6000" :=
  (claim_c9_extension_extraction
      (fun _ => some ⟨"sip:6000@pbx.example.com", []⟩) "notify body"
      ⟨"sip:6000@pbx.example.com", []⟩ rfl).1
    "sip" "6000" "pbx.example.com" (by decide) (by decide) (by decide)

end TeamsBlf
